import Mathlib

/-!
Shallow embedding of the `text-summariser-cli` repository
(`src/summariser/utils.py`, `src/summariser/loaders.py`,
`src/summariser/summariser.py`, `src/summariser/cli.py`, and the
top-level duplicate script `src/summariser.py`), together with proofs
settling the specification claims about it.

Modelling conventions:
* Python `int(x)` on the nonnegative float expressions `n*0.6+30` and
  `n*0.3+12` is embedded as exact rational arithmetic with floor, i.e.
  `6*n/10 + 30` and `3*n/10 + 12` in `Nat`; this was checked to agree
  with IEEE double evaluation for every `n` below 200000, far past the
  point where both clamps saturate.
* External libraries (the HF pipeline/tokenizer, HTTP fetching, the
  PDF/DOCX/HTML extractors, the stdlib CSV parser, the filesystem) are
  abstracted as environment records of opaque-to-the-program functions;
  the repository's own logic (dispatch, chunking, length heuristics,
  joining, error raising) is embedded faithfully from the source.
-/

namespace Summariser

/-! ### `utils.py` : word counting, `auto_lengths`, `chunk_text` -/

/-- A Python `\w` word character for the regex `\w+` used by
`auto_lengths` (ASCII model: alphanumeric or underscore). -/
def isWordChar (c : Char) : Bool := c.isAlphanum || c = '_'

/-- Count the maximal runs of word characters; `inWord` records whether
the previous character was a word character.  This is the number of
matches of `re.findall(r"\w+", text)`. -/
def countRuns : List Char → Bool → Nat
  | [], _ => 0
  | c :: rest, inWord =>
    if isWordChar c then (if inWord then 0 else 1) + countRuns rest true
    else countRuns rest false

/-- `len(re.findall(r"\w+", text))`. -/
def wordCount (s : String) : Nat := countRuns s.toList false

/-- Core of `auto_lengths` as a function of the word count `n`
(the source only uses `text` through `n`):

    if short_cut or n < 300:
        max_len = max(32, min(160, int(n * 0.6 + 30)))
        min_len = max(16, min(max_len - 8, int(n * 0.3 + 12)))
    else:
        max_len, min_len = 180, 60
    if min_len >= max_len:
        min_len = max(16, max_len // 2)
    return max_len, min_len
-/
def autoLengthsN (n : Nat) (short_cut : Bool) : Nat × Nat :=
  let p : Nat × Nat :=
    if short_cut || n < 300 then
      let max_len := max 32 (min 160 (6 * n / 10 + 30))
      let min_len := max 16 (min (max_len - 8) (3 * n / 10 + 12))
      (max_len, min_len)
    else (180, 60)
  if p.2 ≥ p.1 then (p.1, max 16 (p.1 / 2)) else p

/-- `auto_lengths(text, short_cut)` from `src/summariser/utils.py`. -/
def auto_lengths (text : String) (short_cut : Bool) : Nat × Nat :=
  autoLengthsN (wordCount text) short_cut

/-- Python `text.split()`: split on whitespace runs, no empty words. -/
def splitWords (s : String) : List String :=
  (s.split fun c => c.isWhitespace).filter fun w => w ≠ ""

/-- The accumulator loop of `chunk_text`:

    for w in words:
        cur.append(w)
        if len(cur) >= target_words:
            chunks.append(" ".join(cur)); cur = []
    if cur: chunks.append(" ".join(cur))
-/
def chunkLoop (target : Nat) : List String → List String → List String
  | [], cur => if cur.isEmpty then [] else [String.intercalate " " cur]
  | w :: ws, cur =>
    let cur' := cur ++ [w]
    if cur'.length ≥ target then
      String.intercalate " " cur' :: chunkLoop target ws []
    else
      chunkLoop target ws cur'

/-- `chunk_text(text, target_words)` from `src/summariser/utils.py`. -/
def chunk_text (text : String) (target_words : Nat := 400) : List String :=
  chunkLoop target_words (splitWords text) []

/-- Clamp `x` into `[lo, hi]` as `max lo (min hi x)`, the spec's
`clamp(x, lo, hi)`. -/
def clamp (x lo hi : Nat) : Nat := max lo (min hi x)

/-- Reference chunking, following the spec's words: group the word list
into consecutive groups where every group except possibly the last has
exactly `target` words (for `target ≥ 1`). -/
def chunksRef : List String → Nat → List (List String)
  | [], _ => []
  | w :: ws, target =>
    (w :: ws.take (target - 1)) :: chunksRef (ws.drop (target - 1)) target
termination_by ws _ => ws.length
decreasing_by simp; omega

/-- Fuel-based computation of the group sizes produced by `chunksRef`
on a word list of length `n` (first argument is the fuel). -/
def lengthsOfA (t : Nat) : Nat → Nat → List Nat
  | 0, _ => []
  | _ + 1, 0 => []
  | fuel + 1, n + 1 => (1 + min (t - 1) n) :: lengthsOfA t fuel (n - (t - 1))

/-- Group sizes produced by `chunksRef` on a word list of length `n`. -/
def lengthsOf (n t : Nat) : List Nat := lengthsOfA t n n

/-! ### `loaders.py` : CSV joining and input dispatch -/

/-- Python `str.strip()` on a character list: drop whitespace from both
ends (structurally recursive so that it evaluates). -/
def stripChars (cs : List Char) : List Char :=
  ((cs.dropWhile Char.isWhitespace).reverse.dropWhile Char.isWhitespace).reverse

/-- Python `str.strip()`. -/
def strip (s : String) : String := String.mk (stripChars s.toList)

/-- The per-row joining of `read_csv_file`:
`" ".join(cell.strip() for cell in row if cell.strip())`. -/
def rowText (row : List String) : String :=
  String.intercalate " " ((row.map strip).filter fun c => c ≠ "")

/-- `read_csv_file` from `src/summariser/loaders.py`, modelled at the
level of the rows produced by the stdlib `csv.reader` (the CSV parser
itself is external to the repository; a blank input line yields the
empty row `[]`).  The code appends every row's joined text to `buf`
unconditionally and returns `"\n".join(buf)`. -/
def read_csv_file (rows : List (List String)) : String :=
  String.intercalate "\n" (rows.map rowText)

/-- Modelled from the spec's words for comparison (claim C4): each
row's non-empty cells joined by space, rows joined by newline, and
every fully blank row is *skipped* so that it contributes no line. -/
def read_csv_file_spec (rows : List (List String)) : String :=
  String.intercalate "\n"
    (((rows.filter fun row => row.any fun c => strip c ≠ "").map fun row =>
      String.intercalate " " ((row.map strip).filter fun c => c ≠ "")))

/-- The amended description of `read_csv_file` (claim C4): every row —
including a fully blank one — contributes a line holding its non-empty
stripped cells joined by single spaces (so a fully blank row contributes
an empty line); written with the Python generator's filter-then-strip
order. -/
def read_csv_file_amended (rows : List (List String)) : String :=
  String.intercalate "\n" (rows.map fun row =>
    String.intercalate " " ((row.filter fun c => strip c ≠ "").map strip))

/-- Environment abstracting the filesystem, standard input and the
external extraction libraries used by `loaders.py`.  `resolve` models
`Path(arg).expanduser().resolve()` (as a path string); `readText`
models `Path.read_text`; `extractPdf`/`extractDocx`/`extractHtml` model
the pdfplumber/python-docx/BeautifulSoup extractions; `parseCsvRows`
models `csv.reader` on the file's content; `fetchUrl` models `read_url`
(requests plus trafilatura/bs4 extraction). -/
structure LoaderEnv where
  resolve : String → String
  pathExists : String → Bool
  readText : String → String
  extractPdf : String → String
  extractDocx : String → String
  parseCsvRows : String → List (List String)
  extractHtml : String → String
  fetchUrl : String → String
  stdin : String

/-- Python truthiness of an `Optional[str]`: `None` and `""` are falsy. -/
def truthy : Option String → Bool
  | none => false
  | some s => s ≠ ""

/-- `Path.name`: the final path component. -/
def pathName (p : String) : String := (p.splitOn "/").getLastD ""

/-- Python `str.rfind('.')`: index of the last `'.'`, `-1` if absent. -/
def rfindDot (name : String) : Int :=
  name.toList.enum.foldl
    (fun acc q => if q.2 = '.' then (q.1 : Int) else acc) (-1)

/-- `Path.suffix`: `name[i:]` for the last dot index `i` when
`0 < i < len(name) - 1`, else `""`. -/
def pathSuffix (p : String) : String :=
  let name := pathName p
  let i := rfindDot name
  if 0 < i ∧ i < (name.length : Int) - 1 then
    String.mk (name.toList.drop i.toNat)
  else ""

/-- `read_txt`: raw file read. -/
def read_txt (env : LoaderEnv) (p : String) : String := env.readText p

/-- `read_md`: markdown is just text; delegates to `read_txt`. -/
def read_md (env : LoaderEnv) (p : String) : String := read_txt env p

/-- `read_pdf`: external pdfplumber extraction. -/
def read_pdf (env : LoaderEnv) (p : String) : String := env.extractPdf p

/-- `read_docx`: external python-docx extraction. -/
def read_docx (env : LoaderEnv) (p : String) : String := env.extractDocx p

/-- `read_html_file`: external BeautifulSoup extraction. -/
def read_html_file (env : LoaderEnv) (p : String) : String :=
  env.extractHtml p

/-- `read_url`: external fetch-and-extract. -/
def read_url (env : LoaderEnv) (u : String) : String := env.fetchUrl u

/-- Result of `load_input`: a returned text, a raised
`FileNotFoundError`, or a raised `SystemExit` with a message. -/
inductive LoadResult where
  | ok (text : String)
  | fileNotFound (path : String)
  | systemExit (msg : String)
deriving DecidableEq

/-- The file branch of `load_input`: resolve the path, raise
`FileNotFoundError` if it does not exist, else dispatch on the
lower-cased suffix. -/
def loadFile (env : LoaderEnv) (file_arg : String) : LoadResult :=
  let p := env.resolve file_arg
  if env.pathExists p = false then .fileNotFound p
  else
    let ext := (pathSuffix p).toLower
    if ext = ".txt" then .ok (read_txt env p)
    else if ext = ".md" then .ok (read_md env p)
    else if ext = ".pdf" then .ok (read_pdf env p)
    else if ext = ".docx" then .ok (read_docx env p)
    else if ext = ".csv" then .ok (read_csv_file (env.parseCsvRows p))
    else if ext = ".html" ∨ ext = ".htm" then .ok (read_html_file env p)
    else .ok (read_txt env p)

/-- `load_input(text_arg, file_arg, url_arg)` from
`src/summariser/loaders.py`. -/
def load_input (env : LoaderEnv)
    (text_arg file_arg url_arg : Option String) : LoadResult :=
  if truthy url_arg then .ok (read_url env (url_arg.getD ""))
  else if truthy file_arg then loadFile env (file_arg.getD "")
  else if truthy text_arg then .ok (text_arg.getD "")
  else if strip env.stdin ≠ "" then .ok env.stdin
  else .systemExit
    "No input provided. Use --file FILE, --url URL, a text argument, or pipe via stdin."

/-! ### `cli.py` : the part of `main` up to the summarisation call -/

/-- How a CLI run ends, up to the summarisation call: a `SystemExit`
with a user-facing message (non-zero exit), a propagated
`FileNotFoundError`, or proceeding to `summarise_text` on the stripped
input. -/
inductive CliResult where
  | exited (msg : String)
  | fileError (path : String)
  | summarised (input : String)
deriving DecidableEq

/-- `main` from `src/summariser/cli.py`:
`text = load_input(args.text, args.file, args.url).strip()`, exit on
empty, else hand `text` to `summarise_text`. -/
def cli_main (env : LoaderEnv)
    (text_arg file_arg url_arg : Option String) : CliResult :=
  match load_input env text_arg file_arg url_arg with
  | .fileNotFound p => .fileError p
  | .systemExit m => .exited m
  | .ok t =>
    if strip t = "" then .exited "Input is empty after parsing."
    else .summarised (strip t)

/-! ### `summariser.py` : the summarisation driver -/

/-- Environment abstracting the external HF pipeline and tokenizer:
`summarize text max_length min_length num_beams no_repeat_ngram_size`
is one pipeline call (`do_sample=False` and `early_stopping=True` are
fixed at every call site and folded in); `encodeLen` models
`len(tokenizer.encode(text))`; `modelMaxLength` models
`int(tokenizer.model_max_length)`. -/
structure ModelEnv where
  summarize : String → Nat → Nat → Int → Int → String
  encodeLen : String → Nat
  modelMaxLength : Nat

/-- `summarise_text` from `src/summariser/summariser.py` (the
`model_id` argument is absorbed into the environment, which stands for
the pipeline and tokenizer loaded from it). -/
def summarise_text (env : ModelEnv) (text : String)
    (beams no_repeat : Int) (short_flag : Bool) : String :=
  let ml0 := auto_lengths text short_flag
  if env.encodeLen text > env.modelMaxLength then
    let parts := chunk_text text 350
    let partials := parts.map fun part =>
      let ml := auto_lengths part short_flag
      env.summarize part ml.1 ml.2 beams no_repeat
    let combined := String.intercalate " " partials
    let ml := auto_lengths combined true
    env.summarize combined ml.1 ml.2 (max 4 beams) (max no_repeat 3)
  else
    env.summarize text ml0.1 ml0.2 beams no_repeat

/-- A concrete loader environment used by witnesses. -/
def testLoaderEnv : LoaderEnv where
  resolve := fun p => p
  pathExists := fun _ => false
  readText := fun _ => "T"
  extractPdf := fun _ => "P"
  extractDocx := fun _ => "D"
  parseCsvRows := fun _ => []
  extractHtml := fun _ => "H"
  fetchUrl := fun u => "U:" ++ u
  stdin := ""

/-- A concrete model environment used by witnesses. -/
def testModelEnv : ModelEnv where
  summarize := fun t _ _ _ _ => "S(" ++ t ++ ")"
  encodeLen := fun s => s.length
  modelMaxLength := 3

/-! ### The top-level duplicate script `src/summariser.py`

The script repeats the package logic verbatim; its functions are
transcribed here independently for the equivalence claim.  Its
`max_tokens = getattr(tokenizer.model_max_length, "__int__", lambda: 1024)()`
and the package's `int(getattr(tokenizer, "model_max_length", 1024))`
both evaluate to the tokenizer's integer maximum context length
(`ModelEnv.modelMaxLength`) whenever the tokenizer exposes one, which
the spec's external-interface section assumes. -/

namespace Script

/-- `auto_lengths` from the top-level `src/summariser.py`. -/
def auto_lengths (text : String) (short_cut : Bool) : Nat × Nat :=
  let n := wordCount text
  let p : Nat × Nat :=
    if short_cut || n < 300 then
      let max_len := max 32 (min 160 (6 * n / 10 + 30))
      let min_len := max 16 (min (max_len - 8) (3 * n / 10 + 12))
      (max_len, min_len)
    else (180, 60)
  if p.2 ≥ p.1 then (p.1, max 16 (p.1 / 2)) else p

/-- The accumulator loop of the script's `chunk_text`. -/
def chunkLoop (target : Nat) : List String → List String → List String
  | [], cur => if cur.isEmpty then [] else [String.intercalate " " cur]
  | w :: ws, cur =>
    let cur' := cur ++ [w]
    if cur'.length ≥ target then
      String.intercalate " " cur' :: chunkLoop target ws []
    else
      chunkLoop target ws cur'

/-- `chunk_text` from the top-level `src/summariser.py`. -/
def chunk_text (text : String) (target_words : Nat := 400) : List String :=
  chunkLoop target_words (splitWords text) []

/-- `read_csv_file` from the top-level `src/summariser.py`. -/
def read_csv_file (rows : List (List String)) : String :=
  String.intercalate "\n" (rows.map fun row =>
    String.intercalate " " ((row.map strip).filter fun c => c ≠ ""))

/-- The file branch of the script's `load_input` (its extension tests
are written `ext in (".txt",)`, i.e. membership in a one-element tuple,
which is the same test as equality). -/
def loadFile (env : LoaderEnv) (file_arg : String) : LoadResult :=
  let p := env.resolve file_arg
  if env.pathExists p = false then .fileNotFound p
  else
    let ext := (pathSuffix p).toLower
    if ext = ".txt" then .ok (env.readText p)
    else if ext = ".md" then .ok (env.readText p)
    else if ext = ".pdf" then .ok (env.extractPdf p)
    else if ext = ".docx" then .ok (env.extractDocx p)
    else if ext = ".csv" then .ok (Script.read_csv_file (env.parseCsvRows p))
    else if ext = ".html" ∨ ext = ".htm" then .ok (env.extractHtml p)
    else .ok (env.readText p)

/-- `load_input` from the top-level `src/summariser.py`. -/
def load_input (env : LoaderEnv)
    (text_arg file_arg url_arg : Option String) : LoadResult :=
  if truthy url_arg then .ok (env.fetchUrl (url_arg.getD ""))
  else if truthy file_arg then Script.loadFile env (file_arg.getD "")
  else if truthy text_arg then .ok (text_arg.getD "")
  else if strip env.stdin ≠ "" then .ok env.stdin
  else .systemExit
    "No input provided. Use --file FILE, --url URL, a text argument, or pipe via stdin."

/-- `summarise_text` from the top-level `src/summariser.py`. -/
def summarise_text (env : ModelEnv) (text : String)
    (beams no_repeat : Int) (short_flag : Bool) : String :=
  let ml0 := Script.auto_lengths text short_flag
  if env.encodeLen text > env.modelMaxLength then
    let parts := Script.chunk_text text 350
    let partials := parts.map fun part =>
      let ml := Script.auto_lengths part short_flag
      env.summarize part ml.1 ml.2 beams no_repeat
    let combined := String.intercalate " " partials
    let ml := Script.auto_lengths combined true
    env.summarize combined ml.1 ml.2 (max 4 beams) (max no_repeat 3)
  else
    env.summarize text ml0.1 ml0.2 beams no_repeat

end Script

/-- Branch-1 values never trip the `min_len >= max_len` fixup. -/
theorem autoLengthsN_eq (n : Nat) (f : Bool) :
    autoLengthsN n f =
      if f || decide (n < 300) then
        (clamp (6 * n / 10 + 30) 32 160,
         clamp (3 * n / 10 + 12) 16 (clamp (6 * n / 10 + 30) 32 160 - 8))
      else (180, 60) := by
  by_cases h : (f || decide (n < 300)) = true
  · simp only [autoLengthsN, clamp, h, if_true]
    have hfix : ¬ (max 16 (min (max 32 (min 160 (6 * n / 10 + 30)) - 8)
        (3 * n / 10 + 12)) ≥ max 32 (min 160 (6 * n / 10 + 30))) := by
      omega
    rw [if_neg hfix]
  · have h' : (f || decide (n < 300)) = false := by
      revert h; cases f || decide (n < 300) <;> simp
    simp only [autoLengthsN, clamp, h', Bool.false_eq_true, if_false]
    norm_num

/-- Bounds of the two components of `autoLengthsN`. -/
theorem autoLengthsN_bounds (n : Nat) (f : Bool) :
    (autoLengthsN n f).2 < (autoLengthsN n f).1 ∧
      16 ≤ (autoLengthsN n f).2 := by
  rw [autoLengthsN_eq]
  unfold clamp
  split <;> constructor <;> omega

theorem chunksRef_nil (t : Nat) : chunksRef [] t = [] := by
  simp [chunksRef]

theorem chunksRef_cons (w : String) (ws : List String) (t : Nat) :
    chunksRef (w :: ws) t =
      (w :: ws.take (t - 1)) :: chunksRef (ws.drop (t - 1)) t := by
  rw [chunksRef]

/-- Peeling one full group of size `t` off the front of the word list. -/
theorem chunksRef_append_full (t : Nat) (g rest : List String)
    (hg : g.length = t) (ht : 1 ≤ t) :
    chunksRef (g ++ rest) t = g :: chunksRef rest t := by
  match g, hg with
  | [], hg => simp at hg; omega
  | c :: cs, hg =>
    have hcs : cs.length = t - 1 := by
      simp only [List.length_cons] at hg; omega
    rw [List.cons_append, chunksRef_cons]
    rw [← hcs, List.take_left, List.drop_left]

/-- Loop invariant: with a partial accumulator `cur` (strictly below the
flush threshold), the `chunk_text` loop produces exactly the reference
groups of `cur ++ ws`, each joined with single spaces. -/
theorem chunkLoop_eq (target : Nat) (ht : 1 ≤ target) :
    ∀ ws cur : List String, cur.length < target →
      chunkLoop target ws cur =
        (chunksRef (cur ++ ws) target).map (String.intercalate " ") := by
  intro ws
  induction ws with
  | nil =>
    intro cur hcur
    match cur with
    | [] => simp [chunkLoop, chunksRef_nil]
    | c :: cs =>
      have hc : cs.length ≤ target - 1 := by
        simp only [List.length_cons] at hcur; omega
      simp [chunkLoop, chunksRef_cons, List.take_of_length_le hc,
        List.drop_of_length_le hc, chunksRef_nil]
  | cons w ws ih =>
    intro cur hcur
    by_cases hlen : (cur ++ [w]).length ≥ target
    · have hfull : (cur ++ [w]).length = target := by
        simp only [List.length_append, List.length_cons,
          List.length_nil] at hlen ⊢
        omega
      have hsplit : cur ++ w :: ws = (cur ++ [w]) ++ ws := by simp
      rw [hsplit, chunksRef_append_full target (cur ++ [w]) ws hfull ht]
      simp only [chunkLoop, if_pos hlen, List.map_cons]
      rw [ih [] (by simp only [List.length_nil]; omega)]
      simp
    · have hlt : (cur ++ [w]).length < target := by omega
      simp only [chunkLoop, if_neg hlen]
      rw [ih (cur ++ [w]) hlt]
      have : (cur ++ [w]) ++ ws = cur ++ w :: ws := by simp
      rw [this]

/-- The reference groups partition the word list. -/
theorem chunksRef_flatten (t : Nat) :
    ∀ ws : List String, (chunksRef ws t).flatten = ws
  | [] => by simp [chunksRef_nil]
  | w :: ws => by
    rw [chunksRef_cons]
    simp only [List.flatten_cons]
    rw [chunksRef_flatten t (ws.drop (t - 1))]
    rw [List.cons_append, List.take_append_drop]
termination_by ws => ws.length
decreasing_by simp; omega

theorem lengthsOfA_zero (t : Nat) : ∀ f : Nat, lengthsOfA t f 0 = [] := by
  intro f; cases f <;> rfl

/-- `lengthsOfA` does not depend on the fuel once the fuel covers `n`. -/
theorem lengthsOfA_congr (t : Nat) :
    ∀ f1 f2 n : Nat, n ≤ f1 → n ≤ f2 →
      lengthsOfA t f1 n = lengthsOfA t f2 n := by
  intro f1
  induction f1 with
  | zero =>
    intro f2 n h1 _
    have : n = 0 := by omega
    subst this
    rw [lengthsOfA_zero, lengthsOfA_zero]
  | succ f1 ih =>
    intro f2 n h1 h2
    match n, f2 with
    | 0, f2 => rw [lengthsOfA_zero, lengthsOfA_zero]
    | n + 1, f2 + 1 =>
      simp only [lengthsOfA]
      rw [ih f2 (n - (t - 1)) (by omega) (by omega)]

/-- The group sizes of `chunksRef` depend only on the word-list length. -/
theorem chunksRef_map_length (t : Nat) :
    ∀ ws : List String,
      (chunksRef ws t).map List.length = lengthsOf ws.length t
  | [] => by simp [chunksRef_nil, lengthsOf, lengthsOfA]
  | w :: ws => by
    rw [chunksRef_cons]
    simp only [List.map_cons, List.length_cons]
    rw [chunksRef_map_length t (ws.drop (t - 1))]
    simp only [lengthsOf, lengthsOfA, List.length_take, List.length_drop,
      List.length_cons]
    rw [lengthsOfA_congr t (ws.length - (t - 1)) ws.length (ws.length - (t - 1))
      (by omega) (by omega)]
    simp [Nat.add_comm]
termination_by ws => ws.length
decreasing_by simp; omega

/-- Every group size except possibly the last is exactly `t`. -/
theorem lengthsOfA_dropLast (t : Nat) (ht : 1 ≤ t) :
    ∀ fuel n : Nat, ∀ x ∈ (lengthsOfA t fuel n).dropLast, x = t := by
  intro fuel
  induction fuel with
  | zero => intro n x hx; simp [lengthsOfA] at hx
  | succ fuel ih =>
    intro n x hx
    match n with
    | 0 => rw [lengthsOfA_zero] at hx; simp at hx
    | n + 1 =>
      simp only [lengthsOfA] at hx
      by_cases hnil : lengthsOfA t fuel (n - (t - 1)) = []
      · rw [hnil] at hx
        simp at hx
      · rw [List.dropLast_cons_of_ne_nil hnil] at hx
        rcases List.mem_cons.mp hx with h | h
        · have hn : n - (t - 1) ≠ 0 := by
            intro h0
            exact hnil (by rw [h0, lengthsOfA_zero])
          subst h
          have : min (t - 1) n = t - 1 := by omega
          omega
        · exact ih (n - (t - 1)) x h

/-- Every group size lies in `[1, t]`. -/
theorem lengthsOfA_bounds (t : Nat) (ht : 1 ≤ t) :
    ∀ fuel n : Nat, ∀ x ∈ lengthsOfA t fuel n, 1 ≤ x ∧ x ≤ t := by
  intro fuel
  induction fuel with
  | zero => intro n x hx; simp [lengthsOfA] at hx
  | succ fuel ih =>
    intro n x hx
    match n with
    | 0 => rw [lengthsOfA_zero] at hx; simp at hx
    | n + 1 =>
      simp only [lengthsOfA] at hx
      rcases List.mem_cons.mp hx with h | h
      · subst h
        constructor <;> omega
      · exact ih (n - (t - 1)) x h

/-- C1: for every input text and both settings of the bias flag,
`auto_lengths` returns a pair `(max_len, min_len)` with
`min_len < max_len` and `min_len ≥ 16`. -/
theorem auto_lengths_invariant (text : String) (f : Bool) :
    (auto_lengths text f).2 < (auto_lengths text f).1 ∧
      16 ≤ (auto_lengths text f).2 :=
  autoLengthsN_bounds (wordCount text) f

/-- C3: `auto_lengths` returns exactly the piecewise values: with the
bias flag set or a word count `n < 300`,
`max_len = clamp(n*0.6+30, 32, 160)` and
`min_len = clamp(n*0.3+12, 16, max_len-8)` (so `max_len ≤ 160`);
otherwise `(180, 60)`.  Python's `int(·)` on the nonnegative float
expressions is embedded as flooring rational arithmetic. -/
theorem auto_lengths_piecewise (text : String) (f : Bool) :
    (auto_lengths text f =
      if f || decide (wordCount text < 300) then
        (clamp (6 * wordCount text / 10 + 30) 32 160,
         clamp (3 * wordCount text / 10 + 12) 16
           (clamp (6 * wordCount text / 10 + 30) 32 160 - 8))
      else (180, 60))
    ∧ ((f || decide (wordCount text < 300)) = true →
        (auto_lengths text f).1 ≤ 160) := by
  constructor
  · exact autoLengthsN_eq (wordCount text) f
  · intro h
    unfold auto_lengths
    rw [autoLengthsN_eq (wordCount text) f]
    simp only [h, if_true]
    unfold clamp
    omega

/-- Witness for C3 at a concrete input with the bias flag set. -/
theorem auto_lengths_piecewise_witness :
    ((true || decide (wordCount "alpha beta" < 300)) = true) ∧
      (auto_lengths "alpha beta" true).1 ≤ 160 :=
  ⟨by decide, (auto_lengths_piecewise "alpha beta" true).2 (by decide)⟩

/-- C2: for `target_words ≥ 1`, `chunk_text` equals the reference
definition (split on whitespace, group into consecutive groups of
exactly `target_words` words except possibly a shorter last group, join
each group with single spaces); the groups partition the input words in
order; and any 1001-word text with target 200 yields 6 chunks whose
last chunk has 1 word. -/
theorem chunk_text_spec (text : String) (target : Nat) (ht : 1 ≤ target) :
    chunk_text text target =
      (chunksRef (splitWords text) target).map (String.intercalate " ")
    ∧ (chunksRef (splitWords text) target).flatten = splitWords text
    ∧ (∀ g ∈ (chunksRef (splitWords text) target).dropLast,
        g.length = target)
    ∧ (∀ g ∈ chunksRef (splitWords text) target,
        1 ≤ g.length ∧ g.length ≤ target)
    ∧ ((splitWords text).length = 1001 → target = 200 →
        (chunk_text text target).length = 6 ∧
        ((chunksRef (splitWords text) target).map List.length).getLast? =
          some 1) := by
  have hmain : chunk_text text target =
      (chunksRef (splitWords text) target).map (String.intercalate " ") := by
    show chunkLoop target (splitWords text) [] = _
    rw [chunkLoop_eq target ht (splitWords text) []
      (by simp only [List.length_nil]; omega)]
    simp
  refine ⟨hmain, chunksRef_flatten target (splitWords text), ?_, ?_, ?_⟩
  · intro g hg
    have hmem : g.length ∈
        ((chunksRef (splitWords text) target).map List.length).dropLast := by
      rw [← List.map_dropLast]
      exact List.mem_map_of_mem List.length hg
    rw [chunksRef_map_length] at hmem
    exact lengthsOfA_dropLast target ht _ _ _ hmem
  · intro g hg
    have hmem : g.length ∈
        (chunksRef (splitWords text) target).map List.length :=
      List.mem_map_of_mem List.length hg
    rw [chunksRef_map_length] at hmem
    exact lengthsOfA_bounds target ht _ _ _ hmem
  · intro h1001 h200
    subst h200
    have hcount := congrArg List.length
      (chunksRef_map_length 200 (splitWords text))
    rw [List.length_map, h1001] at hcount
    constructor
    · rw [hmain, List.length_map, hcount]
      decide
    · rw [chunksRef_map_length, h1001]
      decide

/-- Witness for C2 at a concrete text and target. -/
theorem chunk_text_spec_witness :
    1 ≤ 2 ∧ chunk_text "a b c" 2 =
      (chunksRef (splitWords "a b c") 2).map (String.intercalate " ") :=
  ⟨by decide, (chunk_text_spec "a b c" 2 (by decide)).1⟩

/-- Strip-then-filter equals filter-then-strip for one CSV row. -/
theorem rowText_filter_map (row : List String) :
    rowText row = String.intercalate " "
      ((row.filter fun c => strip c ≠ "").map strip) := by
  unfold rowText
  congr 1
  induction row with
  | nil => rfl
  | cons c cs ih =>
    by_cases h : strip c = ""
    · simpa [h] using ih
    · simpa [h] using ih

/-- C4 counterexample: on the parsed rows `[["a","b"], [], ["c"]]`
(a CSV file whose middle line is blank), the code emits an empty middle
line while the claimed behaviour skips the blank row, so the claim is
false at this input. -/
theorem read_csv_blank_row_counterexample :
    read_csv_file [["a", "b"], [], ["c"]] = "a b\n\nc" ∧
      read_csv_file_spec [["a", "b"], [], ["c"]] = "a b\nc" ∧
      read_csv_file [["a", "b"], [], ["c"]] ≠
        read_csv_file_spec [["a", "b"], [], ["c"]] := by
  refine ⟨?_, ?_, ?_⟩ <;> decide

/-- C4 (amended): every row — including a fully blank one — contributes
a line holding its non-empty stripped cells joined by single spaces;
rows are joined by newline, and a fully blank row contributes an empty
line rather than being skipped. -/
theorem read_csv_file_lines (rows : List (List String)) :
    read_csv_file rows = read_csv_file_amended rows ∧
      ∀ row, (∀ c ∈ row, strip c = "") → rowText row = "" := by
  constructor
  · have hrw : rowText = fun row =>
        String.intercalate " "
          ((row.filter fun c => strip c ≠ "").map strip) :=
      funext rowText_filter_map
    unfold read_csv_file read_csv_file_amended
    rw [hrw]
  · intro row h
    unfold rowText
    have hnil : (row.map strip).filter (fun c => c ≠ "") = [] := by
      rw [List.filter_eq_nil_iff]
      intro a ha
      rcases List.mem_map.mp ha with ⟨c, hc, rfl⟩
      simp [h c hc]
    rw [hnil]
    rfl

/-- Witness for C4's amended statement on a fully blank row. -/
theorem read_csv_file_lines_witness :
    (∀ c ∈ (["", "  "] : List String), strip c = "") ∧
      rowText ["", "  "] = "" :=
  ⟨by decide, (read_csv_file_lines []).2 ["", "  "] (by decide)⟩

/-- C5: `load_input` dispatches by strict precedence: a truthy URL
argument is fetched; otherwise a truthy file argument is read through
the file branch; otherwise a truthy literal text argument is returned;
otherwise all of standard input is consumed. -/
theorem load_input_precedence (env : LoaderEnv)
    (text_arg file_arg url_arg : Option String) :
    (truthy url_arg = true →
      load_input env text_arg file_arg url_arg =
        .ok (read_url env (url_arg.getD "")))
  ∧ (truthy url_arg = false → truthy file_arg = true →
      load_input env text_arg file_arg url_arg =
        loadFile env (file_arg.getD ""))
  ∧ (truthy url_arg = false → truthy file_arg = false →
      truthy text_arg = true →
      load_input env text_arg file_arg url_arg = .ok (text_arg.getD ""))
  ∧ (truthy url_arg = false → truthy file_arg = false →
      truthy text_arg = false →
      load_input env text_arg file_arg url_arg =
        if strip env.stdin ≠ "" then .ok env.stdin
        else .systemExit
          "No input provided. Use --file FILE, --url URL, a text argument, or pipe via stdin.") := by
  refine ⟨fun hu => ?_, fun hu hf => ?_, fun hu hf ht => ?_,
    fun hu hf ht => ?_⟩
  · simp [load_input, hu]
  · simp [load_input, hu, hf]
  · simp [load_input, hu, hf, ht]
  · simp [load_input, hu, hf, ht]

/-- Witness for C5 with a URL argument present. -/
theorem load_input_precedence_witness :
    truthy (some "u") = true ∧
      load_input testLoaderEnv none none (some "u") =
        .ok (read_url testLoaderEnv ((some "u").getD "")) :=
  ⟨by decide,
    (load_input_precedence testLoaderEnv none none (some "u")).1 (by decide)⟩

/-- C6: when the tokenized input exceeds the model's context length,
`summarise_text` chunks into 350-word targets, summarises each chunk
with its own `auto_lengths` bounds, joins the partials with single
spaces, recomputes bounds over the concatenation with short-bias forced
true, and runs the final pass with `num_beams = max(4, beams)` and
`no_repeat_ngram_size = max(no_repeat, 3)`. -/
theorem summarise_text_long_input (env : ModelEnv) (text : String)
    (beams no_repeat : Int) (f : Bool)
    (h : env.encodeLen text > env.modelMaxLength) :
    summarise_text env text beams no_repeat f =
      (let partials := (chunk_text text 350).map fun part =>
         env.summarize part (auto_lengths part f).1 (auto_lengths part f).2
           beams no_repeat
       let combined := String.intercalate " " partials
       env.summarize combined (auto_lengths combined true).1
         (auto_lengths combined true).2 (max 4 beams) (max no_repeat 3)) := by
  unfold summarise_text
  rw [if_pos h]

/-- Witness for C6 at a concrete over-length input. -/
theorem summarise_text_long_input_witness :
    testModelEnv.encodeLen "aa bb" > testModelEnv.modelMaxLength ∧
      summarise_text testModelEnv "aa bb" 2 1 false =
        (let partials := (chunk_text "aa bb" 350).map fun part =>
           testModelEnv.summarize part (auto_lengths part false).1
             (auto_lengths part false).2 2 1
         let combined := String.intercalate " " partials
         testModelEnv.summarize combined (auto_lengths combined true).1
           (auto_lengths combined true).2 (max 4 2) (max 1 3)) :=
  ⟨by decide,
    summarise_text_long_input testModelEnv "aa bb" 2 1 false (by decide)⟩

/-- C7: with no truthy URL argument and a truthy file argument whose
resolved path does not exist, `load_input` raises `FileNotFoundError`.
The environment — and with it every extension-specific reader — is
universally quantified, so the outcome never consults any reader. -/
theorem load_input_file_not_found (env : LoaderEnv)
    (text_arg file_arg url_arg : Option String)
    (hu : truthy url_arg = false) (hf : truthy file_arg = true)
    (hex : env.pathExists (env.resolve (file_arg.getD "")) = false) :
    load_input env text_arg file_arg url_arg =
      .fileNotFound (env.resolve (file_arg.getD "")) := by
  simp [load_input, hu, hf, loadFile, hex]

/-- Witness for C7 on a missing `.pdf` path. -/
theorem load_input_file_not_found_witness :
    truthy (some "x.pdf") = true ∧
      load_input testLoaderEnv none (some "x.pdf") none =
        .fileNotFound (testLoaderEnv.resolve ((some "x.pdf").getD "")) :=
  ⟨by decide,
    load_input_file_not_found testLoaderEnv none (some "x.pdf") none
      (by decide) (by decide) (by decide)⟩

/-- C8: with no input source and blank standard input, `load_input`
raises `SystemExit` with the no-input message; and whenever the loaded
text strips to empty, the CLI raises `SystemExit` with the empty-input
message and never reaches the summarisation call. -/
theorem empty_input_exits (env : LoaderEnv)
    (text_arg file_arg url_arg : Option String) :
    (truthy url_arg = false → truthy file_arg = false →
      truthy text_arg = false → strip env.stdin = "" →
      load_input env text_arg file_arg url_arg =
        .systemExit
          "No input provided. Use --file FILE, --url URL, a text argument, or pipe via stdin.")
  ∧ (∀ t, load_input env text_arg file_arg url_arg = .ok t →
      strip t = "" →
      cli_main env text_arg file_arg url_arg =
        .exited "Input is empty after parsing." ∧
      ∀ s, cli_main env text_arg file_arg url_arg ≠ .summarised s) := by
  constructor
  · intro hu hf ht hs
    simp [load_input, hu, hf, ht, hs]
  · intro t hok htrim
    have hexit : cli_main env text_arg file_arg url_arg =
        .exited "Input is empty after parsing." := by
      unfold cli_main
      rw [hok]
      simp [htrim]
    refine ⟨hexit, fun s => ?_⟩
    rw [hexit]
    simp

/-- Witness for C8: no sources and empty stdin. -/
theorem empty_input_exits_witness :
    truthy (none : Option String) = false ∧
      strip testLoaderEnv.stdin = "" ∧
      load_input testLoaderEnv none none none =
        .systemExit
          "No input provided. Use --file FILE, --url URL, a text argument, or pipe via stdin." :=
  ⟨by decide, by decide,
    (empty_input_exits testLoaderEnv none none none).1
      (by decide) (by decide) (by decide) (by decide)⟩

/-- The script's chunking loop coincides with the package's. -/
theorem script_chunkLoop_eq (target : Nat) :
    ∀ ws cur : List String,
      Script.chunkLoop target ws cur = chunkLoop target ws cur := by
  intro ws
  induction ws with
  | nil => intro cur; rfl
  | cons w ws ih =>
    intro cur
    by_cases h : (cur ++ [w]).length ≥ target
    · simp only [Script.chunkLoop, chunkLoop, if_pos h, ih]
    · simp only [Script.chunkLoop, chunkLoop, if_neg h, ih]

theorem script_auto_lengths_eq (text : String) (f : Bool) :
    Script.auto_lengths text f = auto_lengths text f := rfl

theorem script_chunk_text_eq (text : String) (t : Nat) :
    Script.chunk_text text t = chunk_text text t :=
  script_chunkLoop_eq t (splitWords text) []

/-- C9: each function the top-level script defines — `auto_lengths`,
`chunk_text`, `load_input`, `summarise_text` — is extensionally equal
to the same-named package function. -/
theorem script_package_equivalence :
    (∀ text f, Script.auto_lengths text f = auto_lengths text f)
  ∧ (∀ text t, Script.chunk_text text t = chunk_text text t)
  ∧ (∀ env text_arg file_arg url_arg,
      Script.load_input env text_arg file_arg url_arg =
        load_input env text_arg file_arg url_arg)
  ∧ (∀ env text beams no_repeat f,
      Script.summarise_text env text beams no_repeat f =
        summarise_text env text beams no_repeat f) := by
  refine ⟨fun _ _ => rfl, fun text t => script_chunk_text_eq text t,
    fun _ _ _ _ => rfl, fun env text beams no_repeat f => ?_⟩
  unfold Script.summarise_text summarise_text
  simp only [script_auto_lengths_eq, script_chunk_text_eq]

/-- C10: an empty-string argument is treated as absent by `load_input`:
each slot with `""` dispatches exactly as if it were `None`. -/
theorem load_input_empty_string_absent (env : LoaderEnv)
    (text_arg file_arg url_arg : Option String) :
    (load_input env text_arg file_arg (some "") =
      load_input env text_arg file_arg none)
  ∧ (load_input env text_arg (some "") url_arg =
      load_input env text_arg none url_arg)
  ∧ (load_input env (some "") file_arg url_arg =
      load_input env none file_arg url_arg) := by
  have h : truthy (some "") = false := by decide
  have h0 : truthy (none : Option String) = false := rfl
  refine ⟨?_, ?_, ?_⟩ <;> simp [load_input, h, h0]

end Summariser
